import Mathlib

/-!
Shallow embedding of `src/helpers/dbmanager.js` (ArbeitBot's data-access
layer over MongoDB/mongoose) and proofs about its operations.

Modelling conventions:
* Mongo ObjectIds and external chat ids are `Nat`.
* A populated `user.categories` array is kept as the list of category
  `_id`s (the source compares populated entries by `''+innerCategory._id`),
  and `category.freelancers` as the list of user `_id`s (the source
  compares raw entries by `''+innerFreelancer == ''+user._id`).
* The document store is a `Store` of lists; `Model.findOne` /
  `Model.findById` are first-match scans; `doc.save` on a loaded document
  replaces every stored document with the same `_id`; `new Model(x).save()`
  appends.
* Callback-based control flow is reified as outcome types: whether the
  user-facing callback was invoked (and with what), whether a `// todo`
  stub silently dropped the continuation, or whether a TypeError was
  thrown inside the promise chain (e.g. dereferencing a null user).
* Fallible `save` calls are modelled by explicit failure flags passed to
  the operation, so that the source's (mis)handling of write errors is
  visible in the outcome.
-/

namespace ArbeitBot

/-- A stored User document (the fields the DB manager touches). -/
structure User where
  _id : Nat
  id : Nat
  busy : Bool
  bio : Option String
  hourly_rate : Option Nat
  name : String
  categories : List Nat
deriving DecidableEq

/-- A stored Category document. -/
structure Category where
  _id : Nat
  title : String
  freelancers : List Nat
deriving DecidableEq

/-- A stored Job document (the fields `freelancersForJob` reads). -/
structure Job where
  _id : Nat
  category : Nat
  notInterestedCandidates : List Nat
deriving DecidableEq

/-- The document store: the three collections the core operations use. -/
structure Store where
  users : List User
  categories : List Category
  jobs : List Job
deriving DecidableEq

/-- Source `findUser({ id: chatId })`: first user whose external id matches. -/
def findUser (s : Store) (chatId : Nat) : Option User :=
  s.users.find? (fun u => u.id == chatId)

/-- Source `Category.findById(categoryId)`: first category with that `_id`. -/
def findCategoryById (s : Store) (categoryId : Nat) : Option Category :=
  s.categories.find? (fun c => c._id == categoryId)

/-- Source `Job.findById(id)` (`findJobById`): first job with that `_id`. -/
def findJobById (s : Store) (jobId : Nat) : Option Job :=
  s.jobs.find? (fun j => j._id == jobId)

/-- Source `user.save()` on a loaded document: replace stored copies by `_id`. -/
def saveUser (s : Store) (u : User) : Store :=
  { s with users := s.users.map (fun v => if v._id == u._id then u else v) }

/-- Source `category.save()` on a loaded document: replace stored copies by `_id`. -/
def saveCategory (s : Store) (c : Category) : Store :=
  { s with categories := s.categories.map (fun d => if d._id == c._id then c else d) }

/-- Source `addUser(user, callback)`: look up by external id; if found return
the existing document (candidate discarded), else persist the candidate. -/
def addUser (s : Store) (candidate : User) : Store × User :=
  match findUser s candidate.id with
  | some dbuserObject => (s, dbuserObject)
  | none => ({ s with users := s.users ++ [candidate] }, candidate)

/-- The `for`-loop with `break` used twice in `toggleCategoryForUser`:
index of the first occurrence of `target`, or `none` (JS `-1`). -/
def scanIndex (target : Nat) : List Nat → Option Nat
  | [] => none
  | x :: xs => if x == target then some 0 else (scanIndex target xs).map (· + 1)

/-- JS `list.splice(i, 1)`: drop the element at index `i`. -/
def spliceOne : List Nat → Nat → List Nat
  | [], _ => []
  | _ :: xs, 0 => xs
  | x :: xs, n + 1 => x :: spliceOne xs n

/-- The in-memory mutation of `findCategoryCallback` inside
`toggleCategoryForUser`: returns the updated user, the updated category and
the `index < 0` flag it will report as `addedCategory`. -/
def findCategoryCallback (user : User) (category : Category) :
    User × Category × Bool :=
  match scanIndex category._id user.categories with
  | none =>
      ({ user with categories := user.categories ++ [category._id] },
       { category with freelancers := category.freelancers ++ [user._id] },
       true)
  | some index =>
      let user' := { user with categories := spliceOne user.categories index }
      let category' :=
        match scanIndex user._id category.freelancers with
        | some ind => { category with freelancers := spliceOne category.freelancers ind }
        | none => category
      (user', category', false)

/-- How one invocation of a callback-based operation ends. -/
inductive ToggleOutcome where
  /-- The user-facing callback was invoked: the resulting store, the user
  document passed along (`none` when `user.save` failed, since the shadowed
  `err` is never checked and `user` is then undefined), and the
  `index < 0` flag. -/
  | callback (store : Store) (user : Option User) (added : Bool)
  /-- A `// todo` stub was reached: the callback is never invoked. -/
  | noCallback (store : Store)
  /-- A TypeError was thrown inside the promise chain (null dereference);
  the callback is never invoked. -/
  | thrown (store : Store)
deriving DecidableEq

/-- Source `toggleCategoryForUser(chatId, categoryId, callback)`.
`userSaveFails` / `categorySaveFails` say whether the corresponding
`save` call reports an error.  Control flow mirrors the source exactly:
a null user still triggers the category lookup and then a TypeError in
`findCategoryCallback`; a missing category reaches the
`// todo: handle if category isn't there` stub; a failing `user.save`
is ignored (its `err` is shadowed) and `category.save` still runs; a
failing `category.save` reaches `// todo: handle error` and the callback
is never invoked. -/
def toggleCategoryForUser (s : Store) (chatId categoryId : Nat)
    (userSaveFails categorySaveFails : Bool) : ToggleOutcome :=
  match findUser s chatId with
  | none =>
      match findCategoryById s categoryId with
      | none => .noCallback s
      | some _ => .thrown s
  | some user =>
      match findCategoryById s categoryId with
      | none => .noCallback s
      | some category =>
          let r := findCategoryCallback user category
          let s1 := if userSaveFails then s else saveUser s r.1
          if categorySaveFails then .noCallback s1
          else
            .callback (saveCategory s1 r.2.1)
              (if userSaveFails then none else some r.1) r.2.2

/-- How `toggleUserAvailability` ends: callback with the saved user, or a
TypeError on the null user. -/
inductive AvailabilityOutcome where
  | callback (store : Store) (user : User)
  | thrown (store : Store)
deriving DecidableEq

/-- Source `toggleUserAvailability(chatId, callback)`: look the user up by
external id, flip `busy`, save.  A missing user makes `user.busy = !user.busy`
throw a TypeError on null inside the promise chain; the callback is never
invoked and no "not found" error is delivered. -/
def toggleUserAvailability (s : Store) (chatId : Nat) : AvailabilityOutcome :=
  match findUser s chatId with
  | none => .thrown s
  | some user =>
      let user' := { user with busy := !user.busy }
      .callback (saveUser s user') user'

/-- The `match` clause of the `freelancers` populate in `getCategory` and
`getCategories`: `busy: false`, `bio: {$exists: true}`,
`hourly_rate: {$exists: true}`. -/
def availableFilter (u : User) : Bool :=
  u.busy == false && u.bio.isSome && u.hourly_rate.isSome

/-- Descending order on `name`: the populate option `sort: {name: -1}`. -/
def byNameDesc (a b : User) : Prop := b.name ≤ a.name

instance : DecidableRel byNameDesc :=
  fun a b => inferInstanceAs (Decidable (b.name ≤ a.name))

instance : IsTotal User byNameDesc :=
  ⟨fun a b => (le_total b.name a.name)⟩

instance : IsTrans User byNameDesc :=
  ⟨fun _ _ _ hab hbc => le_trans hbc hab⟩

/-- The populate of `freelancers` shared verbatim by `getCategory` and
`getCategories`: the stored users referenced by the category, restricted by
the availability match, sorted by name descending. -/
def populateFreelancers (s : Store) (c : Category) : List User :=
  List.insertionSort byNameDesc
    (s.users.filter (fun u => decide (u._id ∈ c.freelancers) && availableFilter u))

/-- Source `getCategory(categoryTitle, callback)`: category by exact title
(first match), paired with its populated freelancer list. -/
def getCategory (s : Store) (categoryTitle : String) :
    Option (Category × List User) :=
  (s.categories.find? (fun c => c.title == categoryTitle)).map
    (fun c => (c, populateFreelancers s c))

/-- Ascending order on `title`: `Category.find({}).sort('title')`. -/
def byTitleAsc (a b : Category) : Prop := a.title ≤ b.title

instance : DecidableRel byTitleAsc :=
  fun a b => inferInstanceAs (Decidable (a.title ≤ b.title))

/-- Source `getCategories(callback)`: all categories sorted by title
ascending, each paired with its populated freelancer list. -/
def getCategories (s : Store) : List (Category × List User) :=
  (List.insertionSort byTitleAsc s.categories).map
    (fun c => (c, populateFreelancers s c))

/-- Source `freelancersForJob(job, callback)`: `User.find` with the `$and`
of category membership, the availability conditions, and
`_id: {$nin: job.notInterestedCandidates}`.  No sort is applied: the result
keeps the store's default order. -/
def freelancersForJob (s : Store) (job : Job) : List User :=
  s.users.filter (fun u =>
    decide (job.category ∈ u.categories) && availableFilter u &&
    !(decide (u._id ∈ job.notInterestedCandidates)))

/-- Source `freelancersForJobId(jobId, callback)`: resolve the job first;
`callback(null)` when it is missing, else delegate to `freelancersForJob`. -/
def freelancersForJobId (s : Store) (jobId : Nat) : Option (List User) :=
  match findJobById s jobId with
  | some job => some (freelancersForJob s job)
  | none => none

/-- The user after a toggle that adds `C`: the source's
`user.categories.push(category)`. -/
def userWithCat (U : User) (C : Category) : User :=
  { U with categories := U.categories ++ [C._id] }

/-- The category after a toggle that adds `U`: the source's
`category.freelancers.push(user)`. -/
def catWithUser (C : Category) (U : User) : Category :=
  { C with freelancers := C.freelancers ++ [U._id] }

/-- The store after a toggle that added the membership on both sides. -/
def storeAfterAdd (s : Store) (U : User) (C : Category) : Store :=
  saveCategory (saveUser s (userWithCat U C)) (catWithUser C U)

/-- The store after saving user document `u` and then category document `c`
(the write order of `toggleCategoryForUser`). -/
def storeAfterDrop (s : Store) (u : User) (c : Category) : Store :=
  saveCategory (saveUser s u) c

/-- The store after `addUser` persisted a fresh candidate. -/
def storeAfterCreate (s : Store) (candidate : User) : Store :=
  { s with users := s.users ++ [candidate] }

/-! Helper lemmas about the scanning loops and the store primitives. -/

theorem scanIndex_eq_none {a : Nat} : ∀ {l : List Nat}, a ∉ l → scanIndex a l = none
  | [], _ => rfl
  | x :: xs, h => by
      have h1 : x ≠ a := fun e => h (e ▸ List.mem_cons_self x xs)
      have h2 : a ∉ xs := fun e => h (List.mem_cons_of_mem x e)
      simp [scanIndex, h1, scanIndex_eq_none h2]

theorem scanIndex_append_self {a : Nat} :
    ∀ {l : List Nat}, a ∉ l → scanIndex a (l ++ [a]) = some l.length
  | [], _ => by simp [scanIndex]
  | x :: xs, h => by
      have h1 : x ≠ a := fun e => h (e ▸ List.mem_cons_self x xs)
      have h2 : a ∉ xs := fun e => h (List.mem_cons_of_mem x e)
      simp [scanIndex, h1, scanIndex_append_self h2]

theorem spliceOne_append_self : ∀ (l : List Nat) (a : Nat), spliceOne (l ++ [a]) l.length = l
  | [], _ => rfl
  | x :: xs, a => by simp [spliceOne, spliceOne_append_self xs a]

theorem scanIndex_get {a : Nat} :
    ∀ {l : List Nat} {i : Nat}, scanIndex a l = some i → l.get? i = some a
  | [], _, h => by simp [scanIndex] at h
  | x :: xs, i, h => by
      simp only [scanIndex] at h
      by_cases hx : (x == a) = true
      · rw [if_pos hx] at h
        cases h
        simpa using (beq_iff_eq.mp hx)
      · rw [if_neg hx] at h
        cases hs : scanIndex a xs with
        | none => rw [hs] at h; simp at h
        | some j =>
            rw [hs] at h
            simp only [Option.map_some'] at h
            cases h
            simpa using scanIndex_get hs

theorem count_spliceOne {a : Nat} :
    ∀ {l : List Nat} {i : Nat}, scanIndex a l = some i →
      (spliceOne l i).count a + 1 = l.count a
  | [], _, h => by simp [scanIndex] at h
  | x :: xs, i, h => by
      simp only [scanIndex] at h
      by_cases hx : (x == a) = true
      · rw [if_pos hx] at h
        cases h
        have hxa : x = a := beq_iff_eq.mp hx
        subst hxa
        show xs.count x + 1 = (x :: xs).count x
        rw [List.count_cons_self]
      · rw [if_neg hx] at h
        cases hs : scanIndex a xs with
        | none => rw [hs] at h; simp at h
        | some j =>
            rw [hs] at h
            simp only [Option.map_some'] at h
            cases h
            have hxa : x ≠ a := by simpa using hx
            show (x :: spliceOne xs j).count a + 1 = (x :: xs).count a
            rw [List.count_cons_of_ne (fun e => hxa e.symm),
                List.count_cons_of_ne (fun e => hxa e.symm)]
            exact count_spliceOne hs

theorem find?_append_none {α : Type} {p : α → Bool} :
    ∀ {l1 : List α} (l2 : List α), l1.find? p = none → (l1 ++ l2).find? p = l2.find? p
  | [], _, _ => rfl
  | x :: xs, l2, h => by
      by_cases hx : p x = true
      · rw [List.find?_cons_of_pos _ hx] at h
        simp at h
      · rw [List.find?_cons_of_neg _ hx] at h
        rw [List.cons_append, List.find?_cons_of_neg _ hx]
        exact find?_append_none l2 h

/-- Replacing each list element either by itself or by a fixed document `b`
that satisfies the search predicate keeps `find?` successful and makes it
return `b`, provided the original hit is replaced by `b`.  This is how a
`save` (replace-by-`_id`) interacts with a subsequent `findOne`. -/
theorem find?_map_update {α : Type} {p : α → Bool} {g : α → α} {b : α}
    (hg : ∀ x, g x = x ∨ g x = b) (hb : p b = true) :
    ∀ {l : List α} {a : α}, l.find? p = some a → g a = b → (l.map g).find? p = some b
  | [], a, h, _ => by simp at h
  | x :: xs, a, h, hab => by
      rw [List.map_cons]
      by_cases hx : p x = true
      · rw [List.find?_cons_of_pos _ hx] at h
        cases h
        rw [hab]
        exact List.find?_cons_of_pos _ hb
      · rw [List.find?_cons_of_neg _ hx] at h
        rcases hg x with hgx | hgx
        · rw [hgx, List.find?_cons_of_neg _ hx]
          exact find?_map_update hg hb h hab
        · rw [hgx]
          exact List.find?_cons_of_pos _ hb

theorem findUser_saveUser {s : Store} {chatId : Nat} {u u' : User}
    (h : findUser s chatId = some u) (hid : u'.id = u.id) (hoid : u'._id = u._id) :
    findUser (saveUser s u') chatId = some u' := by
  have h' : s.users.find? (fun v => v.id == chatId) = some u := h
  have hpu0 := List.find?_some h'
  have hpu : (u.id == chatId) = true := hpu0
  have hb : ((fun v : User => v.id == chatId) u') = true := by
    show (u'.id == chatId) = true
    rw [hid]; exact hpu
  show (s.users.map (fun v => if v._id == u'._id then u' else v)).find?
      (fun v => v.id == chatId) = some u'
  refine @find?_map_update User (fun v => v.id == chatId)
      (fun v => if v._id == u'._id then u' else v) u' (fun x => ?_) hb s.users u h' ?_
  · by_cases hx : (x._id == u'._id) = true
    · right; simp [hx]
    · left; simp [hx]
  · have he : (u._id == u'._id) = true := by simp [hoid]
    simp [he]

theorem findCategoryById_saveCategory {s : Store} {categoryId : Nat} {c c' : Category}
    (h : findCategoryById s categoryId = some c) (hoid : c'._id = c._id) :
    findCategoryById (saveCategory s c') categoryId = some c' := by
  have h' : s.categories.find? (fun d => d._id == categoryId) = some c := h
  have hpc0 := List.find?_some h'
  have hpc : (c._id == categoryId) = true := hpc0
  have hb : ((fun d : Category => d._id == categoryId) c') = true := by
    show (c'._id == categoryId) = true
    rw [hoid]; exact hpc
  show (s.categories.map (fun d => if d._id == c'._id then c' else d)).find?
      (fun d => d._id == categoryId) = some c'
  refine @find?_map_update Category (fun d => d._id == categoryId)
      (fun d => if d._id == c'._id then c' else d) c' (fun x => ?_) hb s.categories c h' ?_
  · by_cases hx : (x._id == c'._id) = true
    · right; simp [hx]
    · left; simp [hx]
  · have he : (c._id == c'._id) = true := by simp [hoid]
    simp [he]

theorem findUser_saveCategory (s : Store) (c : Category) (chatId : Nat) :
    findUser (saveCategory s c) chatId = findUser s chatId := rfl

theorem findCategoryById_saveUser (s : Store) (u : User) (categoryId : Nat) :
    findCategoryById (saveUser s u) categoryId = findCategoryById s categoryId := rfl

/-- A toggle on a user that does not hold the category: both references are
appended and the callback reports `added = true`. -/
theorem toggle_add {s : Store} {chatId categoryId : Nat} {U : User} {C : Category}
    (hU : findUser s chatId = some U) (hC : findCategoryById s categoryId = some C)
    (hUC : C._id ∉ U.categories) :
    toggleCategoryForUser s chatId categoryId false false =
      .callback (storeAfterAdd s U C) (some (userWithCat U C)) true := by
  simp [toggleCategoryForUser, hU, hC, findCategoryCallback, scanIndex_eq_none hUC,
        storeAfterAdd, userWithCat, catWithUser]

/-- A toggle on a user that holds the category, whose inverse link exists:
both first occurrences are spliced out and the callback reports
`added = false`. -/
theorem toggle_remove_found {s : Store} {chatId categoryId : Nat} {U : User}
    {C : Category} {i j : Nat}
    (hU : findUser s chatId = some U) (hC : findCategoryById s categoryId = some C)
    (hi : scanIndex C._id U.categories = some i)
    (hj : scanIndex U._id C.freelancers = some j) :
    toggleCategoryForUser s chatId categoryId false false =
      .callback
        (storeAfterDrop s { U with categories := spliceOne U.categories i }
          { C with freelancers := spliceOne C.freelancers j })
        (some { U with categories := spliceOne U.categories i }) false := by
  simp [toggleCategoryForUser, hU, hC, findCategoryCallback, hi, hj, storeAfterDrop]

/-- A toggle on a user that holds the category but whose inverse link is
missing: only the user side is spliced, the category document is saved
unchanged, and the callback reports `added = false`. -/
theorem toggle_remove_absent {s : Store} {chatId categoryId : Nat} {U : User}
    {C : Category} {i : Nat}
    (hU : findUser s chatId = some U) (hC : findCategoryById s categoryId = some C)
    (hi : scanIndex C._id U.categories = some i)
    (hj : U._id ∉ C.freelancers) :
    toggleCategoryForUser s chatId categoryId false false =
      .callback (storeAfterDrop s { U with categories := spliceOne U.categories i } C)
        (some { U with categories := spliceOne U.categories i }) false := by
  simp [toggleCategoryForUser, hU, hC, findCategoryCallback, hi,
        scanIndex_eq_none hj, storeAfterDrop]

/-! Concrete documents for the witness theorems. -/

/-- A demo user with external chat id 100 and no category memberships. -/
def demoUser : User := ⟨1, 100, false, some "writes JS", some 50, "Amy", []⟩

/-- A demo category with store id 10 and no freelancers. -/
def demoCategory : Category := ⟨10, "Web Development", []⟩

/-- A demo store holding `demoUser` and `demoCategory`. -/
def demoStore : Store := ⟨[demoUser], [demoCategory], []⟩

/-- C1. Toggle symmetry over three calls: starting from a symmetric state in
which the resolvable category C is absent from the resolvable user U's
`categories` (and U from C's `freelancers`), the first
`toggleCategoryForUser` adds C to U.categories and U to C.freelancers and
reports `added = true`; the second call (on the updated store) removes both
memberships and reports `added = false`; the third restores both with
`added = true`.  Symmetric membership (C in the user's categories iff U in
the category's freelancers) holds after each completed toggle. -/
theorem toggle_three_cycle_symmetric
    (s : Store) (chatId categoryId : Nat) (U : User) (C : Category)
    (hU : findUser s chatId = some U)
    (hC : findCategoryById s categoryId = some C)
    (hUC : C._id ∉ U.categories)
    (hCU : U._id ∉ C.freelancers) :
    toggleCategoryForUser s chatId categoryId false false =
        .callback (storeAfterAdd s U C) (some (userWithCat U C)) true
    ∧ C._id ∈ (userWithCat U C).categories
    ∧ U._id ∈ (catWithUser C U).freelancers
    ∧ (C._id ∈ (userWithCat U C).categories ↔ U._id ∈ (catWithUser C U).freelancers)
    ∧ findUser (storeAfterAdd s U C) chatId = some (userWithCat U C)
    ∧ findCategoryById (storeAfterAdd s U C) categoryId = some (catWithUser C U)
    ∧ toggleCategoryForUser (storeAfterAdd s U C) chatId categoryId false false =
        .callback (storeAfterDrop (storeAfterAdd s U C) U C) (some U) false
    ∧ C._id ∉ U.categories
    ∧ U._id ∉ C.freelancers
    ∧ (C._id ∈ U.categories ↔ U._id ∈ C.freelancers)
    ∧ findUser (storeAfterDrop (storeAfterAdd s U C) U C) chatId = some U
    ∧ findCategoryById (storeAfterDrop (storeAfterAdd s U C) U C) categoryId = some C
    ∧ toggleCategoryForUser (storeAfterDrop (storeAfterAdd s U C) U C) chatId
        categoryId false false =
        .callback (storeAfterAdd (storeAfterDrop (storeAfterAdd s U C) U C) U C)
          (some (userWithCat U C)) true := by
  have ht1 := toggle_add hU hC hUC
  have hU1 : findUser (storeAfterAdd s U C) chatId = some (userWithCat U C) :=
    findUser_saveUser hU rfl rfl
  have hC0 : findCategoryById (saveUser s (userWithCat U C)) categoryId = some C := hC
  have hC1 : findCategoryById (storeAfterAdd s U C) categoryId = some (catWithUser C U) :=
    findCategoryById_saveCategory hC0 rfl
  have hscan1 : scanIndex (catWithUser C U)._id (userWithCat U C).categories =
      some U.categories.length := by
    show scanIndex C._id (U.categories ++ [C._id]) = some U.categories.length
    exact scanIndex_append_self hUC
  have hscan2 : scanIndex (userWithCat U C)._id (catWithUser C U).freelancers =
      some C.freelancers.length := by
    show scanIndex U._id (C.freelancers ++ [U._id]) = some C.freelancers.length
    exact scanIndex_append_self hCU
  have hUeq : ({ userWithCat U C with
      categories := spliceOne (userWithCat U C).categories U.categories.length } : User)
      = U := by
    show ({ U with
      categories := spliceOne (U.categories ++ [C._id]) U.categories.length } : User) = U
    rw [spliceOne_append_self]
  have hCeq : ({ catWithUser C U with
      freelancers := spliceOne (catWithUser C U).freelancers C.freelancers.length } :
        Category) = C := by
    show ({ C with
      freelancers := spliceOne (C.freelancers ++ [U._id]) C.freelancers.length } :
        Category) = C
    rw [spliceOne_append_self]
  have ht2 := toggle_remove_found hU1 hC1 hscan1 hscan2
  rw [hUeq, hCeq] at ht2
  have hU2 : findUser (storeAfterDrop (storeAfterAdd s U C) U C) chatId = some U :=
    findUser_saveUser hU1 rfl rfl
  have hC10 : findCategoryById (saveUser (storeAfterAdd s U C) U) categoryId =
      some (catWithUser C U) := hC1
  have hC2 : findCategoryById (storeAfterDrop (storeAfterAdd s U C) U C) categoryId =
      some C := findCategoryById_saveCategory hC10 rfl
  have ht3 := toggle_add hU2 hC2 hUC
  refine ⟨ht1, ?_, ?_, ?_, hU1, hC1, ht2, hUC, hCU, ?_, hU2, hC2, ht3⟩
  · show C._id ∈ U.categories ++ [C._id]
    simp
  · show U._id ∈ C.freelancers ++ [U._id]
    simp
  · constructor
    · intro _
      show U._id ∈ C.freelancers ++ [U._id]
      simp
    · intro _
      show C._id ∈ U.categories ++ [C._id]
      simp
  · exact iff_of_false hUC hCU

/-- Witness for C1 at the demo store: the hypotheses hold there, and the
first toggle behaves as the theorem states. -/
theorem toggle_three_cycle_symmetric_witness :
    (findUser demoStore 100 = some demoUser
     ∧ findCategoryById demoStore 10 = some demoCategory
     ∧ demoCategory._id ∉ demoUser.categories
     ∧ demoUser._id ∉ demoCategory.freelancers)
    ∧ toggleCategoryForUser demoStore 100 10 false false =
        .callback (storeAfterAdd demoStore demoUser demoCategory)
          (some (userWithCat demoUser demoCategory)) true :=
  ⟨⟨by decide, by decide, by decide, by decide⟩,
   (toggle_three_cycle_symmetric demoStore 100 10 demoUser demoCategory
      (by decide) (by decide) (by decide) (by decide)).1⟩

/-- C2. Toggle tolerates asymmetry: when the user's `categories` holds the
category (first occurrence at index `i`) but the category's `freelancers`
does not hold the user, the toggle splices the entry out of the user's
`categories`, saves the category document unchanged, completes without
failure, and reports `added = false`. -/
theorem toggle_asymmetric_self_heals
    (s : Store) (chatId categoryId : Nat) (U : User) (C : Category) (i : Nat)
    (hU : findUser s chatId = some U)
    (hC : findCategoryById s categoryId = some C)
    (hi : scanIndex C._id U.categories = some i)
    (hCU : U._id ∉ C.freelancers) :
    toggleCategoryForUser s chatId categoryId false false =
      .callback (storeAfterDrop s { U with categories := spliceOne U.categories i } C)
        (some { U with categories := spliceOne U.categories i }) false
    ∧ U.categories.get? i = some C._id
    ∧ (spliceOne U.categories i).count C._id + 1 = U.categories.count C._id
    ∧ findCategoryById
        (storeAfterDrop s { U with categories := spliceOne U.categories i } C)
        categoryId = some C := by
  have hC0 : findCategoryById
      (saveUser s { U with categories := spliceOne U.categories i }) categoryId
      = some C := hC
  exact ⟨toggle_remove_absent hU hC hi hCU, scanIndex_get hi, count_spliceOne hi,
         findCategoryById_saveCategory hC0 rfl⟩

/-- A user already holding category 10 on its side only. -/
def asymUser : User := ⟨1, 100, false, some "writes JS", some 50, "Amy", [10]⟩

/-- A store seeded with the one-sided inconsistency: `asymUser.categories`
holds category 10 but `demoCategory.freelancers` is empty. -/
def asymStore : Store := ⟨[asymUser], [demoCategory], []⟩

/-- Witness for C2 at the pre-seeded inconsistent store. -/
theorem toggle_asymmetric_self_heals_witness :
    (findUser asymStore 100 = some asymUser
     ∧ findCategoryById asymStore 10 = some demoCategory
     ∧ scanIndex demoCategory._id asymUser.categories = some 0
     ∧ asymUser._id ∉ demoCategory.freelancers)
    ∧ toggleCategoryForUser asymStore 100 10 false false =
        .callback
          (storeAfterDrop asymStore
            { asymUser with categories := spliceOne asymUser.categories 0 } demoCategory)
          (some { asymUser with categories := spliceOne asymUser.categories 0 }) false :=
  ⟨⟨by decide, by decide, by decide, by decide⟩,
   (toggle_asymmetric_self_heals asymStore 100 10 asymUser demoCategory 0
      (by decide) (by decide) (by decide) (by decide)).1⟩

/-- The shared populate: membership is exactly "referenced by the category,
not busy, bio present, hourly rate present", and the output is sorted by
name descending. -/
theorem populateFreelancers_spec (s : Store) (c : Category) :
    (∀ u : User, u ∈ populateFreelancers s c ↔
        (u ∈ s.users ∧ u._id ∈ c.freelancers ∧ u.busy = false
         ∧ u.bio.isSome = true ∧ u.hourly_rate.isSome = true))
    ∧ List.Sorted byNameDesc (populateFreelancers s c) := by
  constructor
  · intro u
    unfold populateFreelancers
    rw [List.Perm.mem_iff (List.perm_insertionSort _ _), List.mem_filter]
    simp [availableFilter, and_assoc]
  · exact List.sorted_insertionSort _ _

/-- C3. Availability filter: every freelancer list produced by `getCategory`
or `getCategories` contains exactly the stored users referenced by the
category that have `busy = false`, a present `bio` and a present
`hourly_rate`, ordered by name descending; both operations produce the list
through the single shared populate `populateFreelancers`. -/
theorem availability_filter_spec (s : Store) :
    (∀ (t : String) (c : Category) (fl : List User),
        getCategory s t = some (c, fl) →
          ((∀ u : User, u ∈ fl ↔
              (u ∈ s.users ∧ u._id ∈ c.freelancers ∧ u.busy = false
               ∧ u.bio.isSome = true ∧ u.hourly_rate.isSome = true))
           ∧ List.Sorted byNameDesc fl ∧ fl = populateFreelancers s c))
    ∧ (∀ (c : Category) (fl : List User),
        (c, fl) ∈ getCategories s →
          ((∀ u : User, u ∈ fl ↔
              (u ∈ s.users ∧ u._id ∈ c.freelancers ∧ u.busy = false
               ∧ u.bio.isSome = true ∧ u.hourly_rate.isSome = true))
           ∧ List.Sorted byNameDesc fl ∧ fl = populateFreelancers s c)) := by
  constructor
  · intro t c fl h
    unfold getCategory at h
    cases hf : s.categories.find? (fun d => d.title == t) with
    | none => rw [hf] at h; simp at h
    | some c0 =>
        rw [hf] at h
        simp only [Option.map_some', Option.some.injEq, Prod.mk.injEq] at h
        obtain ⟨hc, hfl⟩ := h
        subst hc
        subst hfl
        exact ⟨(populateFreelancers_spec s _).1, (populateFreelancers_spec s _).2, rfl⟩
  · intro c fl h
    unfold getCategories at h
    rcases List.mem_map.mp h with ⟨c0, _, heq⟩
    rw [Prod.mk.injEq] at heq
    obtain ⟨hc, hfl⟩ := heq
    subst hc
    subst hfl
    exact ⟨(populateFreelancers_spec s _).1, (populateFreelancers_spec s _).2, rfl⟩

/-- Amy: available with full profile. -/
def amy : User := ⟨1, 100, false, some "a", some 50, "Amy", [10]⟩

/-- Ben: busy, so filtered out. -/
def ben : User := ⟨2, 101, true, some "b", some 60, "Ben", [10]⟩

/-- Cid: bio unset, so filtered out. -/
def cid : User := ⟨3, 102, false, none, some 70, "Cid", [10]⟩

/-- A category referencing all three demo freelancers. -/
def webCategory : Category := ⟨10, "Web", [1, 2, 3]⟩

/-- A store exercising the availability filter. -/
def filterStore : Store := ⟨[amy, ben, cid], [webCategory], []⟩

/-- Witness for C3: at `filterStore`, `getCategory` produces exactly `[amy]`
and the characterization instantiates at `amy`. -/
theorem availability_filter_spec_witness :
    getCategory filterStore "Web" = some (webCategory, [amy])
    ∧ (amy ∈ [amy] ↔
        (amy ∈ filterStore.users ∧ amy._id ∈ webCategory.freelancers
         ∧ amy.busy = false ∧ amy.bio.isSome = true
         ∧ amy.hourly_rate.isSome = true)) :=
  ⟨by decide,
   (((availability_filter_spec filterStore).1 "Web" webCategory [amy] (by decide)).1 amy)⟩

/-- C4. What the code actually does on unresolvable documents, evaluated at
concrete failing inputs on `demoStore` (user chat id 100, category id 10):
with an unknown category id (99) the `// todo: handle if category isn't
there` stub is reached and the callback is never invoked — no "not found"
failure is delivered; with an unknown user (chat id 42) the category lookup
is still issued and the null user is dereferenced, throwing a TypeError
inside the promise chain — again no "not found" failure reaches the
caller. -/
theorem toggle_missing_docs_no_notfound :
    toggleCategoryForUser demoStore 100 99 false false = .noCallback demoStore
    ∧ toggleCategoryForUser demoStore 42 10 false false = .thrown demoStore :=
  ⟨by decide, by decide⟩

/-- C5. What the code actually does when a write fails, evaluated on
`demoStore`: when `user.save` fails (first conjunct) its error is shadowed
and never inspected, `category.save` still runs, and the callback is
invoked reporting no error (with an undefined user document) — the failed
first write is not reported; when `category.save` fails (second conjunct)
the `// todo: handle error` stub is reached after the user document was
already persisted, and the callback is never invoked — the failure is
dropped, not reported.  The write order (user first, then category) is the
one visible in the store terms. -/
theorem toggle_save_failure_not_reported :
    toggleCategoryForUser demoStore 100 10 true false =
      .callback (saveCategory demoStore (catWithUser demoCategory demoUser)) none true
    ∧ toggleCategoryForUser demoStore 100 10 false true =
      .noCallback (saveUser demoStore (userWithCat demoUser demoCategory)) :=
  ⟨by decide, by decide⟩

/-- An empty store. -/
def blankStore : Store := ⟨[], [], []⟩

/-- A fresh user candidate with external id 200. -/
def candidateA : User := ⟨5, 200, false, none, none, "Ben", []⟩

/-- A different candidate carrying the same external id 200. -/
def candidateB : User := ⟨6, 200, true, some "other", none, "Impostor", []⟩

/-- C6. `addUser` is an idempotent create: with no stored user under the
candidate's external id, the first call persists the candidate; a second
call with any candidate carrying the same external id returns the first
stored document unchanged, leaves the store unchanged, and exactly one
stored document carries that id. -/
theorem addUser_idempotent
    (s : Store) (candidate c2 : User)
    (hfresh : findUser s candidate.id = none)
    (hid : c2.id = candidate.id) :
    addUser s candidate = (storeAfterCreate s candidate, candidate)
    ∧ addUser (storeAfterCreate s candidate) c2 = (storeAfterCreate s candidate, candidate)
    ∧ ((storeAfterCreate s candidate).users.filter
        (fun u => u.id == candidate.id)).length = 1 := by
  have hfresh' : s.users.find? (fun u => u.id == candidate.id) = none := hfresh
  have hpc : ((fun u : User => u.id == candidate.id) candidate) = true := by
    show (candidate.id == candidate.id) = true
    simp
  have hfound : findUser (storeAfterCreate s candidate) c2.id = some candidate := by
    show (s.users ++ [candidate]).find? (fun u => u.id == c2.id) = some candidate
    rw [hid]
    rw [find?_append_none _ hfresh']
    exact List.find?_cons_of_pos _ hpc
  refine ⟨?_, ?_, ?_⟩
  · simp [addUser, hfresh, storeAfterCreate]
  · simp [addUser, hfound]
  · show ((s.users ++ [candidate]).filter (fun u => u.id == candidate.id)).length = 1
    rw [List.filter_append]
    have hnil : s.users.filter (fun u => u.id == candidate.id) = [] := by
      rw [List.filter_eq_nil_iff]
      intro a ha
      exact List.find?_eq_none.mp hfresh' a ha
    rw [hnil]
    simp

/-- Witness for C6: starting from the empty store, adding `candidateA` and
then `candidateB` (same external id 200) keeps one stored document and
returns `candidateA`'s data unchanged. -/
theorem addUser_idempotent_witness :
    (findUser blankStore candidateA.id = none ∧ candidateB.id = candidateA.id)
    ∧ (addUser blankStore candidateA = (storeAfterCreate blankStore candidateA, candidateA)
       ∧ addUser (storeAfterCreate blankStore candidateA) candidateB
          = (storeAfterCreate blankStore candidateA, candidateA)
       ∧ ((storeAfterCreate blankStore candidateA).users.filter
            (fun u => u.id == candidateA.id)).length = 1) :=
  ⟨⟨by decide, by decide⟩,
   addUser_idempotent blankStore candidateA candidateB (by decide) (by decide)⟩

/-- C7. `freelancersForJob` returns exactly the stored users that belong to
the job's category, pass the availability predicate, and are not on the
job's not-interested list; the result is a sublist of the stored users in
store order (no sort, in particular no name-descending sort, is applied). -/
theorem freelancersForJob_spec (s : Store) (job : Job) :
    (∀ u : User, u ∈ freelancersForJob s job ↔
        (u ∈ s.users ∧ job.category ∈ u.categories ∧ u.busy = false
         ∧ u.bio.isSome = true ∧ u.hourly_rate.isSome = true
         ∧ u._id ∉ job.notInterestedCandidates))
    ∧ (freelancersForJob s job).Sublist s.users := by
  constructor
  · intro u
    unfold freelancersForJob
    rw [List.mem_filter]
    simp [availableFilter, and_assoc]
  · exact List.filter_sublist s.users

/-- C8. `freelancersForJobId` resolves the job first: an unresolvable job id
yields the absent result `callback(null)` and never an error; a resolvable
one delegates to `freelancersForJob`. -/
theorem freelancersForJobId_spec (s : Store) (jobId : Nat) :
    (findJobById s jobId = none → freelancersForJobId s jobId = none)
    ∧ (∀ job : Job, findJobById s jobId = some job →
        freelancersForJobId s jobId = some (freelancersForJob s job)) := by
  constructor
  · intro h
    unfold freelancersForJobId
    rw [h]
  · intro job h
    unfold freelancersForJobId
    rw [h]

/-- Witness for C8: the empty store has no job 5, and the operation returns
the absent result. -/
theorem freelancersForJobId_spec_witness :
    findJobById blankStore 5 = none ∧ freelancersForJobId blankStore 5 = none :=
  ⟨by decide, (freelancersForJobId_spec blankStore 5).1 (by decide)⟩

/-- C9. What `toggleUserAvailability` actually does, evaluated on
`demoStore`: for the existing user (chat id 100) it flips `busy` and
persists the user through the callback; for a missing user (chat id 42) the
code dereferences null (`user.busy = !user.busy`), throwing a TypeError
inside the promise chain — the callback is never invoked and no "not found"
failure is propagated to the caller. -/
theorem toggleUserAvailability_behavior :
    toggleUserAvailability demoStore 100 =
      .callback (saveUser demoStore { demoUser with busy := true })
        { demoUser with busy := true }
    ∧ toggleUserAvailability demoStore 42 = .thrown demoStore :=
  ⟨by decide, by decide⟩

/-- C10. Frame property of the toggle's in-memory mutation: for every
invocation, `findCategoryCallback` changes only the user's `categories`
field and the category's `freelancers` field; `_id`, `id`, `busy`, `bio`,
`hourly_rate` and `name` of the user and `_id` and `title` of the category
are exactly as loaded when the save calls are issued. -/
theorem findCategoryCallback_frame (user : User) (category : Category) :
    ((findCategoryCallback user category).1._id = user._id
     ∧ (findCategoryCallback user category).1.id = user.id
     ∧ (findCategoryCallback user category).1.busy = user.busy
     ∧ (findCategoryCallback user category).1.bio = user.bio
     ∧ (findCategoryCallback user category).1.hourly_rate = user.hourly_rate
     ∧ (findCategoryCallback user category).1.name = user.name)
    ∧ ((findCategoryCallback user category).2.1._id = category._id
       ∧ (findCategoryCallback user category).2.1.title = category.title) := by
  unfold findCategoryCallback
  cases h1 : scanIndex category._id user.categories with
  | none => simp
  | some i =>
      cases h2 : scanIndex user._id category.freelancers with
      | none => simp
      | some j => simp

end ArbeitBot
